import Mathlib

/-!
Shallow embedding of the Readwise Obsidian plugin's sync core
(`src/src/main.ts`, current revision, and the earlier revision `src/main.ts`
where the claims cite it), together with theorems settling the frozen claims.

Conventions of the embedding:
- JavaScript objects used as string maps (`booksIDsMap`, the file store) are
  association lists with JS-object semantics: assignment updates an existing
  key in place or appends a new key at the end.
- `fetch` results are `Option (HttpResponse α)`: `none` models the promise
  rejecting (transport failure, the `catch` branches), `some r` a response
  whose `r.status` drives `response.ok` (2xx) and explicit status checks.
- Persistence (`saveSettings` / `saveData`) is modelled by the returned
  `Settings` value; the file store by an explicit `FS` value.
- A thrown-and-uncaught JS exception is modelled with `Option`/a `Bool` abort
  flag, mirroring exactly where the source's `try`/`catch` blocks sit.
-/

namespace Readwise

/-- JS-object lookup `m[k]`: `none` models `undefined`. -/
def mapLookup (m : List (String × String)) (k : String) : Option String :=
  match m with
  | [] => none
  | (k', v) :: rest => if k' = k then some v else mapLookup rest k

/-- JS-object assignment `m[k] = v`: updates an existing key in place,
otherwise appends the new key at the end (JS property order). -/
def mapInsert (m : List (String × String)) (k v : String) : List (String × String) :=
  match m with
  | [] => [(k, v)]
  | (k', v') :: rest => if k' = k then (k, v) :: rest else (k', v') :: mapInsert rest k v

/-- `ReadwisePluginSettings` (src/src/main.ts lines 36-66).  Job ids are
modelled as `Int` (JS numbers used only in integral comparisons here). -/
structure Settings where
  token : String
  readwiseDir : String
  isSyncing : Bool
  frequency : String
  triggerOnLoad : Bool
  lastSyncFailed : Bool
  lastSavedStatusID : Int
  currentSyncStatusID : Int
  refreshBooks : Bool
  booksToRefresh : List String
  booksIDsMap : List (String × String)
  reimportShowConfirmation : Bool
deriving DecidableEq, Repr

/-- `DEFAULT_SETTINGS` (src/src/main.ts lines 70-83). -/
def DEFAULT_SETTINGS : Settings :=
  { token := ""
  , readwiseDir := "Readwise"
  , frequency := "0"
  , triggerOnLoad := true
  , isSyncing := false
  , lastSyncFailed := false
  , lastSavedStatusID := 0
  , currentSyncStatusID := 0
  , refreshBooks := false
  , booksToRefresh := []
  , booksIDsMap := []
  , reimportShowConfirmation := true }

/-- An HTTP response that `fetch` resolved with: its status code and parsed body. -/
structure HttpResponse (α : Type) where
  status : Nat
  body : α
deriving Repr

/-- `response.ok`: status in the 2xx range. -/
def respOk (status : Nat) : Bool :=
  decide (200 ≤ status) && decide (status < 300)

/-- `ExportRequestResponse` (src/src/main.ts lines 24-27). -/
structure ExportRequestData where
  latest_id : Int
  status : String
deriving DecidableEq, Repr

/-- `ExportStatusResponse` (src/src/main.ts lines 29-34). -/
structure ExportStatusData where
  totalBooks : Int
  booksExported : Int
  isFinished : Bool
  taskStatus : String
deriving DecidableEq, Repr

/-- `clearSettingsAfterRun` (src/src/main.ts lines 117-121). -/
def clearSettingsAfterRun (s : Settings) : Settings :=
  { s with isSyncing := false, currentSyncStatusID := 0 }

/-- `handleSyncSuccess` (src/src/main.ts lines 123-136).  `exportID` defaults
to `null` (`none` here); the JS truthiness test `if (exportID)` also rejects
the number `0`. -/
def handleSyncSuccess (exportID : Option Int) (s : Settings) : Settings :=
  let s1 := { clearSettingsAfterRun s with lastSyncFailed := false }
  match exportID with
  | some e => if e ≠ 0 then { s1 with lastSavedStatusID := e } else s1
  | none => s1

/-- `handleSyncError` (src/src/main.ts lines 105-115): `clearSettingsAfterRun`
then `lastSyncFailed := true`; the remaining statements only display the
message. -/
def handleSyncError (s : Settings) : Settings :=
  { clearSettingsAfterRun s with lastSyncFailed := true }

/-- `addBookToRefresh` (src/src/main.ts lines 487-493, identical in the earlier
revision src/main.ts lines 321-326): an unconditional `push` onto
`booksToRefresh`. -/
def addBookToRefresh (bookId : String) (s : Settings) : Settings :=
  { s with booksToRefresh := s.booksToRefresh ++ [bookId] }

/-- `removeBooksFromRefresh` (src/src/main.ts lines 495-501). -/
def removeBooksFromRefresh (bookIds : List String) (s : Settings) : Settings :=
  if bookIds.isEmpty then s
  else { s with booksToRefresh := s.booksToRefresh.filter (fun n => !(bookIds.contains n)) }

/-- Split a character list at every occurrence of the single character `c`,
like JS `str.split(c)` (structurally recursive so that concrete instances
reduce in the kernel). -/
def splitChar (c : Char) : List Char → List (List Char)
  | [] => [[]]
  | x :: xs =>
    match splitChar c xs with
    | h :: t => if x = c then [] :: h :: t else (x :: h) :: t
    | [] => if x = c then [[], []] else [[x]]

/-- JS `str.split("--")`: split at every non-overlapping occurrence of the
two-character delimiter `--`, scanning left to right. -/
def splitDashDash : List Char → List (List Char)
  | [] => [[]]
  | [x] => [[x]]
  | x :: y :: rest =>
    if x = '-' ∧ y = '-' then [] :: splitDashDash rest
    else
      match splitDashDash (y :: rest) with
      | h :: t => (x :: h) :: t
      | [] => [[x]]

/-- JS `parts.join(sep)`. -/
def joinWith (sep : List Char) : List (List Char) → List Char
  | [] => []
  | [x] => x
  | x :: y :: rest => x ++ sep ++ joinWith sep (y :: rest)

/-- Obsidian's `normalizePath` (external host primitive): backslashes become
slashes, runs of slashes collapse, leading/trailing slashes are stripped. -/
def normalizePath (p : String) : String :=
  let cs := p.toList.map (fun c => if c = '\\' then '/' else c)
  let segs := (splitChar '/' cs).filter (fun seg => seg ≠ [])
  String.mk (joinWith ['/'] segs)

/-- `entry.filename.replace(/^Readwise/, this.settings.readwiseDir)`
(src/src/main.ts line 315): the anchored regex replaces the literal leading
`Readwise` once, when present. -/
def remapRoot (dir : String) (name : String) : String :=
  if "Readwise".toList.isPrefixOf name.toList then
    dir ++ String.mk (name.toList.drop "Readwise".toList.length)
  else name

/-- `str.match(/\d+/g)[0]`: the first maximal run of decimal digits in `str`,
or `none` when the string has no digit (JS `match` returns `null` and the
`[0]` indexing throws). -/
def firstDigitRun (str : String) : Option String :=
  let rest := str.toList.dropWhile (fun c => !c.isDigit)
  if rest.isEmpty then none
  else some (String.mk (rest.takeWhile (fun c => c.isDigit)))

/-- `processedFileName` (src/src/main.ts line 315). -/
def processedName (dir fname : String) : String :=
  normalizePath (remapRoot dir fname)

/-- `let split = processedFileName.split("--")` (src/src/main.ts line 320). -/
def nameSplit (dir fname : String) : List String :=
  (splitDashDash (processedName dir fname).toList).map String.mk

/-- `originalName` in the delimiter case (src/src/main.ts line 322):
`split.slice(0, -1).join("--") + ".md"` — the name truncated at the last
`--`, with `.md` appended. -/
def desuffixedTarget (dir fname : String) : String :=
  String.mk (joinWith ['-', '-'] ((splitDashDash (processedName dir fname).toList).dropLast)) ++ ".md"

/-- Lines 318-327 of src/src/main.ts: derive the write target and the optional
book id from an entry's name.  Result `some (target, some bid)` for a name
with the `--` delimiter and a digit after the last delimiter, `some (target,
none)` for a name without the delimiter, and `none` when the delimiter is
present but the last segment has no digit — there `split.last().match(/\d+/g)`
is `null` and indexing it throws an uncaught TypeError. -/
def entryTargetId (dir fname : String) : Option (String × Option String) :=
  let split := nameSplit dir fname
  if 1 < split.length then
    match firstDigitRun (split.getLastD "") with
    | some bid => some (desuffixedTarget dir fname, some bid)
    | none => none
  else some (processedName dir fname, none)

/-- One archive entry: its packed name and its text content
(`entry.getData(new zip.TextWriter())`). -/
structure ZipEntry where
  filename : String
  contents : String
deriving DecidableEq, Repr

/-- The vault adapter's file store: path ↦ content, plus the set of target
paths whose write raises an I/O error (modelling the `try`/`catch` around the
directory creation / write block, src/src/main.ts lines 344-371). -/
structure FS where
  files : List (String × String)
  failPaths : List String
deriving DecidableEq, Repr

/-- `this.settings.booksIDsMap[originalName] = bookID` (src/src/main.ts line
326), executed only when a book id was parsed. -/
def recordBook (originalName : String) (bookID : Option String) (s : Settings) : Settings :=
  match bookID with
  | some bid => { s with booksIDsMap := mapInsert s.booksIDsMap originalName bid }
  | none => s

/-- The `catch` of the write block (src/src/main.ts lines 363-371):
`if (bookID) await this.addBookToRefresh(bookID)`. -/
def entryFailCase (bookID : Option String) (s : Settings) : Settings :=
  match bookID with
  | some bid => addBookToRefresh bid s
  | none => s

/-- `await this.removeBooksFromRefresh([bookID])` (src/src/main.ts line 361):
with `bookID` undefined the filter over `[undefined]` removes nothing. -/
def entrySuccessQueue (bookID : Option String) (s : Settings) : Settings :=
  match bookID with
  | some bid => removeBooksFromRefresh [bid] s
  | none => s

/-- `contentToSave` (src/src/main.ts lines 353-359): append to an existing
file's content, else the new content alone. -/
def contentToSave (fs : FS) (originalName newContent : String) : String :=
  match mapLookup fs.files originalName with
  | some existingContent => existingContent ++ newContent
  | none => newContent

/-- The body of the per-entry loop of `downloadExport` (src/src/main.ts lines
309-371).  `none` models the uncaught TypeError thrown at line 323 when the
name has a `--` delimiter but no digit after the last one; it occurs before
any state mutation for that entry.  Otherwise: the book id (when parsed) is
recorded in `booksIDsMap` BEFORE the write (lines 320-327); then the write is
attempted — on success the file is created or appended to (lines 352-360) and
the book id is removed from the refresh queue (line 361), on an I/O error the
`catch` enqueues the book id for a later refresh (lines 363-371). -/
def processEntry (dir : String) (e : ZipEntry) (s : Settings) (fs : FS) :
    Option (Settings × FS) :=
  match entryTargetId dir e.filename with
  | none => none
  | some (originalName, bookID) =>
    if fs.failPaths.contains originalName then
      some (entryFailCase bookID (recordBook originalName bookID s), fs)
    else
      some (entrySuccessQueue bookID (recordBook originalName bookID s),
            { fs with files := mapInsert fs.files originalName
                        (contentToSave fs originalName e.contents) })

/-- `for (const entry of entries)` (src/src/main.ts lines 309-372).  The third
component is `false` when the loop aborted on the uncaught per-entry
TypeError, carrying the state as mutated by the entries already processed. -/
def processEntries (dir : String) (es : List ZipEntry) (s : Settings) (fs : FS) :
    Settings × FS × Bool :=
  match es with
  | [] => (s, fs, true)
  | e :: rest =>
    match processEntry dir e s fs with
    | some (s1, fs1) => processEntries dir rest s1 fs1
    | none => (s, fs, false)

/-- Outcome marker for `queueExport`. -/
inductive QueueOutcome where
  | rejected
  | upToDate
  | poll (id : Int)
  | otherDevice
  | failed
deriving DecidableEq, Repr

/-- `queueExport` (src/src/main.ts lines 185-243) up to the hand-off to
polling.  `r` is the result of the `/api/obsidian/init` fetch; when
`isSyncing` is already set the function returns before any fetch, so the
result does not depend on `r`. -/
def queueExport (r : Option (HttpResponse ExportRequestData)) (s : Settings) :
    Settings × QueueOutcome :=
  if s.isSyncing then (s, QueueOutcome.rejected)
  else
    let s1 := { s with isSyncing := true }
    match r with
    | some resp =>
      if respOk resp.status then
        if resp.body.latest_id ≤ s1.lastSavedStatusID then
          (handleSyncSuccess none s1, QueueOutcome.upToDate)
        else
          let s2 := { s1 with currentSyncStatusID := resp.body.latest_id }
          if resp.status = 201 then (s2, QueueOutcome.poll resp.body.latest_id)
          else (handleSyncSuccess (some resp.body.latest_id) s2, QueueOutcome.otherDevice)
      else (handleSyncError s1, QueueOutcome.failed)
    | none => (handleSyncError s1, QueueOutcome.failed)

/-- Outcome marker for one round of `getExportStatus`. -/
inductive PollOutcome where
  | waiting
  | download
  | failed
deriving DecidableEq, Repr

/-- One round of `getExportStatus` (src/src/main.ts lines 140-182): classify
the status response into waiting (poll again), download, or terminal failure;
a missing response (fetch threw), a non-2xx response, and an unrecognized
`taskStatus` all go through `handleSyncError`. -/
def getExportStatusStep (r : Option (HttpResponse ExportStatusData)) (s : Settings) :
    Settings × PollOutcome :=
  match r with
  | some resp =>
    if respOk resp.status then
      if ["PENDING", "RECEIVED", "STARTED", "RETRY"].contains resp.body.taskStatus then
        (s, PollOutcome.waiting)
      else if resp.body.taskStatus = "SUCCESS" then (s, PollOutcome.download)
      else (handleSyncError s, PollOutcome.failed)
    else (handleSyncError s, PollOutcome.failed)
  | none => (handleSyncError s, PollOutcome.failed)

/-- `acknowledgeSyncCompleted` (src/src/main.ts lines 386-405): best-effort
POST; on a missing or non-2xx response it calls `handleSyncError` but
`downloadExport` then proceeds to `handleSyncSuccess` regardless. -/
def ackStep (r : Option (HttpResponse Unit)) (s : Settings) : Settings :=
  match r with
  | some resp => if respOk resp.status then s else handleSyncError s
  | none => handleSyncError s

/-- Result marker for `downloadExport`. -/
inductive DlResult where
  | skipped
  | fetchFailed
  | aborted
  | completed
deriving DecidableEq, Repr

/-- `downloadExport` (src/src/main.ts lines 277-384).  The idempotence guard
(lines 279-284) runs before the artifact fetch, so in the skipped case the
result does not depend on `r` or `ack`.  `r` is the artifact fetch (its body
the unzipped entry list), `ack` the `sync_ack` response.  When the entry loop
aborts on the uncaught TypeError, the exception propagates to the caller
(`getExportStatus`'s catch), which runs `handleSyncError` on the partially
mutated state. -/
def downloadExport (exportID : Int) (r : Option (HttpResponse (List ZipEntry)))
    (ack : Option (HttpResponse Unit)) (s : Settings) (fs : FS) :
    Settings × FS × DlResult :=
  if exportID ≤ s.lastSavedStatusID then
    (handleSyncSuccess none s, fs, DlResult.skipped)
  else
    match r with
    | some resp =>
      if respOk resp.status then
        let res := processEntries s.readwiseDir resp.body s fs
        if res.2.2 then
          (handleSyncSuccess (some exportID) (ackStep ack res.1), res.2.1, DlResult.completed)
        else (handleSyncError res.1, res.2.1, DlResult.aborted)
      else (handleSyncError s, fs, DlResult.fetchFailed)
    | none => (handleSyncError s, fs, DlResult.fetchFailed)

/-- `refreshBookExport` of the earlier revision (src/main.ts lines 281-319).
`bookIds` defaults to the whole queue; an empty id list returns before any
fetch.  On a 2xx the flushed ids are filtered out of the queue.  On a non-2xx
the code computes `booksToRefresh.concat(bookIds)` but discards the result
(`Array.concat` does not mutate) and re-assigns the same array, so the queue
is unchanged; a rejected fetch promise likewise leaves it unchanged. -/
def refreshBookExport (bookIds : Option (List String)) (r : Option (HttpResponse Unit))
    (s : Settings) : Settings :=
  let ids := bookIds.getD s.booksToRefresh
  if ids.isEmpty then s
  else
    match r with
    | some resp =>
      if respOk resp.status then
        { s with booksToRefresh := s.booksToRefresh.filter (fun n => !(ids.contains n)) }
      else s
    | none => s

/-- `Array.from(new Set(a ++ b))`: concatenation with later duplicates
removed, keeping first-occurrence order (JS `Set` iterates in insertion
order). -/
def dedupFirst (l : List String) : List String :=
  l.foldl (fun acc x => if x ∈ acc then acc else acc ++ [x]) []

/-- The refresh-flush portion of `syncBookHighlights` (src/src/main.ts lines
462-485): POST the target ids.  On a 2xx it proceeds to `queueExport` and the
queue is not modified by the flush itself.  On a non-2xx with an explicit
`bookIds` list the queue becomes the deduplicated union
`new Set([...booksToRefresh, ...bookIds])`; with `bookIds` undefined the
spread `...bookIds` throws a TypeError that the surrounding `catch` swallows,
leaving the queue unchanged — as does a rejected fetch promise. -/
def syncBookHighlightsFlush (bookIds : Option (List String)) (r : Option (HttpResponse Unit))
    (s : Settings) : Settings :=
  match r with
  | some resp =>
    if respOk resp.status then s
    else
      match bookIds with
      | some l => { s with booksToRefresh := dedupFirst (s.booksToRefresh ++ l) }
      | none => s
  | none => s

/-- The vault `delete` handler of the earlier revision (src/main.ts lines
339-345): look the path up in `booksIDsMap`; when auto-refresh is on and the
id is truthy, enqueue it.  The handler never deletes the map entry.  (The
trailing `refreshBookExport()` call is the debounced flush, modelled by
`refreshBookExport` above.) -/
def onDeleteV1 (path : String) (s : Settings) : Settings :=
  match mapLookup s.booksIDsMap path with
  | some bookId =>
    if s.refreshBooks && !(bookId == "") then addBookToRefresh bookId s else s
  | none => s

/-! ### Helper lemmas about the map and list operations -/

theorem mapLookup_mapInsert_self (m : List (String × String)) (k v : String) :
    mapLookup (mapInsert m k v) k = some v := by
  induction m with
  | nil => simp [mapInsert, mapLookup]
  | cons p rest ih =>
    obtain ⟨k', v'⟩ := p
    by_cases h : k' = k
    · simp [mapInsert, mapLookup, h]
    · simp [mapInsert, mapLookup, h, ih]

theorem mapLookup_mapInsert_isSome (m : List (String × String)) (k0 v k : String)
    (h : (mapLookup (mapInsert m k0 v) k).isSome = true) :
    k = k0 ∨ (mapLookup m k).isSome = true := by
  induction m with
  | nil =>
    by_cases hk : k0 = k
    · exact Or.inl hk.symm
    · simp [mapInsert, mapLookup, hk] at h
  | cons p rest ih =>
    obtain ⟨k', v'⟩ := p
    by_cases hk : k' = k0
    · subst hk
      by_cases hkk : k' = k
      · exact Or.inl hkk.symm
      · right
        simp only [mapInsert, if_pos rfl, mapLookup, if_neg hkk] at h
        simpa [mapLookup, hkk] using h
    · by_cases hkk : k' = k
      · right; simp [mapLookup, hkk]
      · simp only [mapInsert, if_neg hk, mapLookup, if_neg hkk] at h
        rcases ih h with h1 | h2
        · exact Or.inl h1
        · right; simpa [mapLookup, hkk] using h2

theorem mem_dedupFirst_aux (l : List String) :
    ∀ (acc : List String) (x : String), x ∈ acc ∨ x ∈ l →
      x ∈ l.foldl (fun acc y => if y ∈ acc then acc else acc ++ [y]) acc := by
  induction l with
  | nil =>
    intro acc x h
    simp only [List.foldl_nil]
    exact h.resolve_right (by simp)
  | cons y t ih =>
    intro acc x h
    simp only [List.foldl_cons]
    apply ih
    rcases h with h1 | h2
    · left
      by_cases hy : y ∈ acc
      · simpa [hy] using h1
      · simp [hy, List.mem_append, h1]
    · rcases List.mem_cons.mp h2 with h3 | h4
      · left
        subst h3
        by_cases hy : x ∈ acc
        · simp [hy]
        · simp [hy]
      · right
        exact h4

theorem mem_dedupFirst (x : String) (l : List String) (h : x ∈ l) : x ∈ dedupFirst l := by
  exact mem_dedupFirst_aux l [] x (Or.inr h)

theorem filter_not_contains_nil (l : List String) :
    l.filter (fun n => !(([] : List String).contains n)) = l := by
  induction l with
  | nil => rfl
  | cons a t ih => simp [List.filter, ih]

theorem filter_not_contains_all (l2 : List String) :
    ∀ l : List String, (∀ a, a ∈ l → l2.contains a = true) →
      l.filter (fun n => !(l2.contains n)) = [] := by
  intro l
  induction l with
  | nil => intro _; rfl
  | cons a t ih =>
    intro h
    have ha := h a (List.mem_cons_self a t)
    simp only [List.filter_cons, ha, Bool.not_true, Bool.false_eq_true, if_false]
    exact ih (fun b hb => h b (List.mem_cons_of_mem a hb))

theorem filter_not_contains_self (l : List String) :
    l.filter (fun n => !(l.contains n)) = [] := by
  apply filter_not_contains_all
  intro a ha
  exact List.elem_iff.mpr ha

/-! ### Frame lemmas for the per-entry merge step -/

theorem removeBooksFromRefresh_lastSaved (l : List String) (s : Settings) :
    (removeBooksFromRefresh l s).lastSavedStatusID = s.lastSavedStatusID := by
  unfold removeBooksFromRefresh
  split <;> rfl

theorem recordBook_lastSaved (t : String) (bid : Option String) (s : Settings) :
    (recordBook t bid s).lastSavedStatusID = s.lastSavedStatusID := by
  cases bid <;> rfl

theorem entryFailCase_lastSaved (bid : Option String) (s : Settings) :
    (entryFailCase bid s).lastSavedStatusID = s.lastSavedStatusID := by
  cases bid <;> rfl

theorem entrySuccessQueue_lastSaved (bid : Option String) (s : Settings) :
    (entrySuccessQueue bid s).lastSavedStatusID = s.lastSavedStatusID := by
  cases bid with
  | none => rfl
  | some b => exact removeBooksFromRefresh_lastSaved [b] s

theorem processEntry_lastSaved {dir : String} {e : ZipEntry} {s s' : Settings} {fs fs' : FS}
    (h : processEntry dir e s fs = some (s', fs')) :
    s'.lastSavedStatusID = s.lastSavedStatusID := by
  unfold processEntry at h
  rcases het : entryTargetId dir e.filename with _ | ⟨t, bid⟩ <;> rw [het] at h
  · cases h
  · dsimp only at h
    by_cases hf : fs.failPaths.contains t = true
    · rw [if_pos hf] at h
      simp only [Option.some.injEq, Prod.mk.injEq] at h
      obtain ⟨h1, _⟩ := h
      rw [← h1, entryFailCase_lastSaved, recordBook_lastSaved]
    · rw [if_neg hf] at h
      simp only [Option.some.injEq, Prod.mk.injEq] at h
      obtain ⟨h1, _⟩ := h
      rw [← h1, entrySuccessQueue_lastSaved, recordBook_lastSaved]

theorem processEntries_lastSaved (dir : String) (es : List ZipEntry) :
    ∀ (s : Settings) (fs : FS),
      (processEntries dir es s fs).1.lastSavedStatusID = s.lastSavedStatusID := by
  induction es with
  | nil => intro s fs; rfl
  | cons e rest ih =>
    intro s fs
    rcases hpe : processEntry dir e s fs with _ | ⟨s1, fs1⟩
    · simp [processEntries, hpe]
    · simp only [processEntries, hpe]
      exact (ih s1 fs1).trans (processEntry_lastSaved hpe)

theorem ackStep_lastSaved (r : Option (HttpResponse Unit)) (s : Settings) :
    (ackStep r s).lastSavedStatusID = s.lastSavedStatusID := by
  rcases r with _ | resp
  · rfl
  · by_cases hok : respOk resp.status = true
    · simp [ackStep, hok]
    · simp [ackStep, hok, handleSyncError, clearSettingsAfterRun]

theorem entryFailCase_booksIDsMap (bid : Option String) (s : Settings) :
    (entryFailCase bid s).booksIDsMap = s.booksIDsMap := by
  cases bid <;> rfl

theorem entrySuccessQueue_booksIDsMap (bid : Option String) (s : Settings) :
    (entrySuccessQueue bid s).booksIDsMap = s.booksIDsMap := by
  cases bid with
  | none => rfl
  | some b =>
    show (removeBooksFromRefresh [b] s).booksIDsMap = s.booksIDsMap
    unfold removeBooksFromRefresh
    split <;> rfl

/-- Shape of the index after one merged entry: either unchanged, or one
insertion at the entry's parsed target path. -/
theorem processEntry_booksIDsMap {dir : String} {e : ZipEntry} {s s' : Settings} {fs fs' : FS}
    (h : processEntry dir e s fs = some (s', fs')) :
    s'.booksIDsMap = s.booksIDsMap
    ∨ ∃ t b, entryTargetId dir e.filename = some (t, some b)
        ∧ s'.booksIDsMap = mapInsert s.booksIDsMap t b := by
  unfold processEntry at h
  rcases het : entryTargetId dir e.filename with _ | ⟨t, bid⟩ <;> rw [het] at h
  · cases h
  · dsimp only at h
    by_cases hf : fs.failPaths.contains t = true
    · rw [if_pos hf] at h
      simp only [Option.some.injEq, Prod.mk.injEq] at h
      obtain ⟨h1, _⟩ := h
      rcases bid with _ | b
      · left
        rw [← h1, entryFailCase_booksIDsMap]
        rfl
      · right
        refine ⟨t, b, rfl, ?_⟩
        rw [← h1, entryFailCase_booksIDsMap]
        rfl
    · rw [if_neg hf] at h
      simp only [Option.some.injEq, Prod.mk.injEq] at h
      obtain ⟨h1, _⟩ := h
      rcases bid with _ | b
      · left
        rw [← h1, entrySuccessQueue_booksIDsMap]
        rfl
      · right
        refine ⟨t, b, rfl, ?_⟩
        rw [← h1, entrySuccessQueue_booksIDsMap]
        rfl

/-! ### Claim theorems -/

/-- C1: for every job id `J` and settings with `J ≤ lastSavedStatusID`,
`downloadExport J` returns before the artifact fetch — the result is the same
for every possible fetch outcome `r` and ack outcome `ack` (no network fetch
of the archive is performed), it reports success via `handleSyncSuccess` with
no export id, and `lastSavedStatusID` is unchanged. -/
theorem downloadExport_completed_job_skips (J : Int) (s : Settings)
    (h : J ≤ s.lastSavedStatusID) :
    (∀ r ack fs, downloadExport J r ack s fs = (handleSyncSuccess none s, fs, DlResult.skipped))
    ∧ (handleSyncSuccess none s).lastSavedStatusID = s.lastSavedStatusID := by
  constructor
  · intro r ack fs
    simp [downloadExport, h]
  · rfl

/-- C1 witness: concrete instance of the idempotence guard at `J = 3`,
`lastSavedStatusID = 5`. -/
theorem downloadExport_completed_job_skips_witness :
    downloadExport 3 none none { DEFAULT_SETTINGS with lastSavedStatusID := 5 } ⟨[], []⟩
      = (handleSyncSuccess none { DEFAULT_SETTINGS with lastSavedStatusID := 5 },
         ⟨[], []⟩, DlResult.skipped) :=
  (downloadExport_completed_job_skips 3 { DEFAULT_SETTINGS with lastSavedStatusID := 5 }
    (by decide)).1 none none ⟨[], []⟩

/-- C2: with `isSyncing = true`, `queueExport` rejects before any fetch: the
result is the same for every possible fetch outcome `r` (no export-request
call is issued) and the settings are returned entirely unchanged. -/
theorem queueExport_mutex (s : Settings) (h : s.isSyncing = true) :
    ∀ r, queueExport r s = (s, QueueOutcome.rejected) := by
  intro r
  simp [queueExport, h]

/-- C2 witness: concrete rejected invocation. -/
theorem queueExport_mutex_witness :
    queueExport none { DEFAULT_SETTINGS with isSyncing := true }
      = ({ DEFAULT_SETTINGS with isSyncing := true }, QueueOutcome.rejected) :=
  queueExport_mutex { DEFAULT_SETTINGS with isSyncing := true } (by decide) none

/-- C3 counterexample: enqueuing the same record id twice yields two
occurrences in `booksToRefresh`, not one — `addBookToRefresh` appends
unconditionally and never deduplicates. -/
theorem addBookToRefresh_duplicates_counterexample :
    (addBookToRefresh "7" (addBookToRefresh "7" DEFAULT_SETTINGS)).booksToRefresh = ["7", "7"]
    ∧ ¬ ((addBookToRefresh "7" (addBookToRefresh "7" DEFAULT_SETTINGS)).booksToRefresh.count "7"
          = 1) := by
  decide

/-- C3 amended: each call to `addBookToRefresh` appends exactly one occurrence
of the id, so enqueuing the same record id twice results in exactly two more
occurrences of it in `booksToRefresh` (no deduplication is performed). -/
theorem addBookToRefresh_appends_each_call (r : String) (s : Settings) :
    (addBookToRefresh r (addBookToRefresh r s)).booksToRefresh.count r
      = s.booksToRefresh.count r + 2 := by
  simp [addBookToRefresh, List.count_append]

/-- Concrete tracked-path scenario used by the C4 theorems. -/
def cfgC4 : Settings :=
  { DEFAULT_SETTINGS with booksIDsMap := [("Readwise/Books/Foo.md", "42")], refreshBooks := true }

/-- C4 counterexample: with path `Readwise/Books/Foo.md` tracked under record
id `"42"` and auto-refresh enabled, the delete handler enqueues `"42"` but
does NOT remove the path from `booksIDsMap` — the index still maps the
deleted path, contradicting the claim's "p removed from the index". -/
theorem onDelete_keeps_index_counterexample :
    (onDeleteV1 "Readwise/Books/Foo.md" cfgC4).booksToRefresh = ["42"]
    ∧ mapLookup (onDeleteV1 "Readwise/Books/Foo.md" cfgC4).booksIDsMap "Readwise/Books/Foo.md"
        = some "42"
    ∧ ¬ (mapLookup (onDeleteV1 "Readwise/Books/Foo.md" cfgC4).booksIDsMap "Readwise/Books/Foo.md"
          = none) := by
  decide

/-- C4 amended: a delete event on a tracked path with a non-empty record id
and auto-refresh enabled appends the record id to the refresh queue, and
leaves the path-to-record-id index entirely unchanged (the path is not
removed). -/
theorem onDelete_enqueues_and_keeps_index (p bid : String) (s : Settings)
    (hmap : mapLookup s.booksIDsMap p = some bid) (hne : bid ≠ "")
    (hrefresh : s.refreshBooks = true) :
    (onDeleteV1 p s).booksToRefresh = s.booksToRefresh ++ [bid]
    ∧ (onDeleteV1 p s).booksIDsMap = s.booksIDsMap := by
  have hb : (bid == "") = false := by
    simpa using hne
  simp [onDeleteV1, hmap, hrefresh, hb, addBookToRefresh]

/-- C4 witness: the amended behaviour at the concrete scenario. -/
theorem onDelete_enqueues_and_keeps_index_witness :
    (onDeleteV1 "Readwise/Books/Foo.md" cfgC4).booksToRefresh = cfgC4.booksToRefresh ++ ["42"]
    ∧ (onDeleteV1 "Readwise/Books/Foo.md" cfgC4).booksIDsMap = cfgC4.booksIDsMap :=
  onDelete_enqueues_and_keeps_index "Readwise/Books/Foo.md" "42" cfgC4
    (by decide) (by decide) (by decide)

/-- C5: merging an archive entry whose parsed target path already holds a
file with content `x` leaves the file holding `x ++ contents` (existing
content first); when no file exists at the target, the file is written with
exactly the entry's contents.  (`bid` is the entry's optional parsed record
id; the write itself must not raise, i.e. the target is not a failing
path.) -/
theorem mergeEntry_append_semantics (dir : String) (e : ZipEntry) (s : Settings) (fs : FS)
    (t : String) (bid : Option String) (x : String)
    (ht : entryTargetId dir e.filename = some (t, bid))
    (hfail : fs.failPaths.contains t = false) :
    (mapLookup fs.files t = some x →
      ∃ s' fs', processEntry dir e s fs = some (s', fs')
        ∧ mapLookup fs'.files t = some (x ++ e.contents))
    ∧ (mapLookup fs.files t = none →
      ∃ s' fs', processEntry dir e s fs = some (s', fs')
        ∧ mapLookup fs'.files t = some e.contents) := by
  constructor
  · intro hx
    refine ⟨entrySuccessQueue bid (recordBook t bid s),
      { fs with files := mapInsert fs.files t (contentToSave fs t e.contents) }, ?_, ?_⟩
    · simp only [processEntry, ht, hfail, Bool.false_eq_true, if_false]
    · rw [mapLookup_mapInsert_self]
      simp [contentToSave, hx]
  · intro hx
    refine ⟨entrySuccessQueue bid (recordBook t bid s),
      { fs with files := mapInsert fs.files t (contentToSave fs t e.contents) }, ?_, ?_⟩
    · simp only [processEntry, ht, hfail, Bool.false_eq_true, if_false]
    · rw [mapLookup_mapInsert_self]
      simp [contentToSave, hx]

/-- C5 witness: appending `"Y"` to an existing `"X"` yields `"XY"` at the
de-suffixed target of `Readwise/Books/Foo--123.md`. -/
theorem mergeEntry_append_semantics_witness :
    mapLookup (((processEntry "Readwise" ⟨"Readwise/Books/Foo--123.md", "Y"⟩ DEFAULT_SETTINGS
        ⟨[("Readwise/Books/Foo.md", "X")], []⟩).getD (DEFAULT_SETTINGS, ⟨[], []⟩)).2).files
      "Readwise/Books/Foo.md" = some "XY" := by
  obtain ⟨s', fs', h1, h2⟩ :=
    (mergeEntry_append_semantics "Readwise" ⟨"Readwise/Books/Foo--123.md", "Y"⟩ DEFAULT_SETTINGS
      ⟨[("Readwise/Books/Foo.md", "X")], []⟩ "Readwise/Books/Foo.md" (some "123") "X"
      (by decide) (by decide)).1 (by decide)
  rw [h1]
  exact h2.trans (by decide)

/-- Concrete starting state for the C6 theorems: one queued id and a server
already past job 5. -/
def cfgC6 : Settings :=
  { DEFAULT_SETTINGS with booksToRefresh := ["7"], lastSavedStatusID := 10 }

/-- C6 counterexample: in the current revision's flush
(`syncBookHighlights`), a 2xx from `/api/refresh_book_export` does NOT remove
the flushed ids from the queue — the code proceeds to `queueExport`, and in
the concrete run below (the init call reports `latest_id = 5 ≤
lastSavedStatusID = 10`, so no archive is downloaded) the flushed id `"7"` is
still queued at the end, contradicting "exactly the flushed ids are removed
from the queue". -/
theorem flush_success_keeps_queue_counterexample :
    (syncBookHighlightsFlush (some ["7"]) (some ⟨200, ()⟩) cfgC6).booksToRefresh = ["7"]
    ∧ (queueExport (some ⟨200, ⟨5, "SUCCESS"⟩⟩)
        (syncBookHighlightsFlush (some ["7"]) (some ⟨200, ()⟩) cfgC6)).1.booksToRefresh.contains
        "7" = true := by
  decide

/-- C6 amended: (v1 `refreshBookExport`) on a 2xx exactly the flushed ids are
removed from the queue, and flushing the whole queue empties it; on a non-2xx
or transport failure the queue is left unchanged — the attempted re-add
`booksToRefresh.concat(bookIds)` discards its result, so ids already queued
remain but nothing is added.  (Current `syncBookHighlights` flush) a 2xx
leaves the queue untouched at flush time (removal happens later, per entry,
during the merge); on a non-2xx with an explicit id list the queue becomes
the deduplicated union of the old queue and the flushed ids, so every flushed
id is queued afterwards; with no explicit list (flushing the queue itself)
the queue is unchanged, so the flushed ids remain queued. -/
theorem flushQueueEffect :
    (∀ ids s r, respOk r.status = true →
        (refreshBookExport (some ids) (some r) s).booksToRefresh
          = s.booksToRefresh.filter (fun n => !(ids.contains n)))
    ∧ (∀ s r, respOk r.status = true →
        (refreshBookExport none (some r) s).booksToRefresh = [])
    ∧ (∀ ids s r, respOk r.status = false → refreshBookExport ids (some r) s = s)
    ∧ (∀ ids s, refreshBookExport ids none s = s)
    ∧ (∀ ids s r, respOk r.status = true → syncBookHighlightsFlush ids (some r) s = s)
    ∧ (∀ l s r, respOk r.status = false →
        (syncBookHighlightsFlush (some l) (some r) s).booksToRefresh
          = dedupFirst (s.booksToRefresh ++ l))
    ∧ (∀ s r, respOk r.status = false → syncBookHighlightsFlush none (some r) s = s)
    ∧ (∀ l s r x, respOk r.status = false → x ∈ s.booksToRefresh ++ l →
        x ∈ (syncBookHighlightsFlush (some l) (some r) s).booksToRefresh) := by
  refine ⟨?_, ?_, ?_, ?_, ?_, ?_, ?_, ?_⟩
  · intro ids s r hr
    by_cases hids : ids = []
    · subst hids
      simp [refreshBookExport, filter_not_contains_nil]
    · have hne : ids.isEmpty = false := by
        simpa [List.isEmpty_iff] using hids
      simp [refreshBookExport, hne, hr]
  · intro s r hr
    by_cases hq : s.booksToRefresh = []
    · simp [refreshBookExport, hq]
    · have hne : s.booksToRefresh.isEmpty = false := by
        simpa [List.isEmpty_iff] using hq
      simp [refreshBookExport, hne, hr, filter_not_contains_self]
  · intro ids s r hr
    unfold refreshBookExport
    simp [hr]
  · intro ids s
    by_cases hne : (ids.getD s.booksToRefresh).isEmpty = true
    · simp [refreshBookExport, hne]
    · simp [refreshBookExport, hne]
  · intro ids s r hr
    simp [syncBookHighlightsFlush, hr]
  · intro l s r hr
    simp [syncBookHighlightsFlush, hr]
  · intro s r hr
    simp [syncBookHighlightsFlush, hr]
  · intro l s r x hr hx
    simp only [syncBookHighlightsFlush, hr, Bool.false_eq_true, if_false]
    exact mem_dedupFirst x (s.booksToRefresh ++ l) hx

/-- C6 witness: concrete instances of the amended flush behaviour — a v1 2xx
flush of `["7"]` from the queue `["5", "7"]` leaves exactly `["5"]`, and a
failed current-revision flush re-queues the flushed ids `["7", "8"]` as the
deduplicated union. -/
theorem flushQueueEffect_witness :
    (refreshBookExport (some ["7"]) (some ⟨200, ()⟩)
        { DEFAULT_SETTINGS with booksToRefresh := ["5", "7"] }).booksToRefresh = ["5"]
    ∧ (syncBookHighlightsFlush (some ["7", "8"]) (some ⟨500, ()⟩)
        { DEFAULT_SETTINGS with booksToRefresh := ["7", "5"] }).booksToRefresh
        = ["7", "5", "8"] := by
  constructor
  · exact (flushQueueEffect.1 ["7"] { DEFAULT_SETTINGS with booksToRefresh := ["5", "7"] }
      ⟨200, ()⟩ (by decide)).trans (by decide)
  · exact (flushQueueEffect.2.2.2.2.2.1 ["7", "8"]
      { DEFAULT_SETTINGS with booksToRefresh := ["7", "5"] } ⟨500, ()⟩ (by decide)).trans
      (by decide)

/-- Failure invariant of C7: the mutex is released, the in-flight job id is
reset, and the failure flag is raised. -/
def failureCleared (s : Settings) : Prop :=
  s.isSyncing = false ∧ s.currentSyncStatusID = 0 ∧ s.lastSyncFailed = true

theorem handleSyncError_lastSaved (s : Settings) :
    (handleSyncError s).lastSavedStatusID = s.lastSavedStatusID := rfl

theorem handleSyncSuccess_none_lastSaved (s : Settings) :
    (handleSyncSuccess none s).lastSavedStatusID = s.lastSavedStatusID := rfl

theorem handleSyncSuccess_some_lastSaved (e : Int) (s : Settings)
    (h : s.lastSavedStatusID ≤ e) :
    s.lastSavedStatusID ≤ (handleSyncSuccess (some e) s).lastSavedStatusID := by
  by_cases hz : e = 0
  · subst hz
    simp [handleSyncSuccess, clearSettingsAfterRun]
  · have hv : (handleSyncSuccess (some e) s).lastSavedStatusID = e := by
      simp [handleSyncSuccess, hz]
    rw [hv]
    exact h

/-- C7: every failure path — `handleSyncError` itself, a missing/non-2xx
response or unrecognized task status in `getExportStatusStep`, a missing/
non-2xx response in `queueExport`, a failed artifact fetch in
`downloadExport`, and an aborted entry loop — leaves the settings with
`isSyncing = false`, `currentSyncStatusID = 0`, `lastSyncFailed = true` (the
persisted state is the returned settings value). -/
theorem failure_paths_clear_sync_state :
    (∀ s, failureCleared (handleSyncError s))
    ∧ (∀ r s, (getExportStatusStep r s).2 = PollOutcome.failed →
        failureCleared (getExportStatusStep r s).1)
    ∧ (∀ r s, (queueExport r s).2 = QueueOutcome.failed →
        failureCleared (queueExport r s).1)
    ∧ (∀ J r ack s fs, (downloadExport J r ack s fs).2.2 = DlResult.fetchFailed →
        failureCleared (downloadExport J r ack s fs).1)
    ∧ (∀ J r ack s fs, (downloadExport J r ack s fs).2.2 = DlResult.aborted →
        failureCleared (downloadExport J r ack s fs).1) := by
  have herr : ∀ s, failureCleared (handleSyncError s) := fun s => ⟨rfl, rfl, rfl⟩
  refine ⟨herr, ?_, ?_, ?_, ?_⟩
  · intro r s h
    rcases r with _ | resp
    · exact herr s
    · simp only [getExportStatusStep] at h ⊢
      by_cases hok : respOk resp.status = true
      · rw [if_pos hok] at h ⊢
        by_cases hw : ["PENDING", "RECEIVED", "STARTED", "RETRY"].contains resp.body.taskStatus
            = true
        · rw [if_pos hw] at h
          simp at h
        · rw [if_neg hw] at h ⊢
          by_cases hs : resp.body.taskStatus = "SUCCESS"
          · rw [if_pos hs] at h
            simp at h
          · rw [if_neg hs]
            exact herr s
      · rw [if_neg hok]
        exact herr s
  · intro r s h
    rcases r with _ | resp
    · simp only [queueExport] at h ⊢
      by_cases hsync : s.isSyncing = true
      · rw [if_pos hsync] at h
        simp at h
      · rw [if_neg hsync]
        exact herr _
    · simp only [queueExport] at h ⊢
      by_cases hsync : s.isSyncing = true
      · rw [if_pos hsync] at h
        simp at h
      · rw [if_neg hsync] at h ⊢
        by_cases hok : respOk resp.status = true
        · rw [if_pos hok] at h
          by_cases hle : resp.body.latest_id ≤ s.lastSavedStatusID
          · rw [if_pos hle] at h
            simp at h
          · rw [if_neg hle] at h
            by_cases h201 : resp.status = 201
            · rw [if_pos h201] at h
              simp at h
            · rw [if_neg h201] at h
              simp at h
        · rw [if_neg hok]
          exact herr _
  · intro J r ack s fs h
    rcases r with _ | resp
    · simp only [downloadExport] at h ⊢
      by_cases hle : J ≤ s.lastSavedStatusID
      · rw [if_pos hle] at h
        simp at h
      · rw [if_neg hle]
        exact herr s
    · simp only [downloadExport] at h ⊢
      by_cases hle : J ≤ s.lastSavedStatusID
      · rw [if_pos hle] at h
        simp at h
      · rw [if_neg hle] at h ⊢
        by_cases hok : respOk resp.status = true
        · rw [if_pos hok] at h
          rcases hpe : processEntries s.readwiseDir resp.body s fs with ⟨s1, fs1, flag⟩
          rcases flag with _ | _
          · rw [hpe] at h
            simp at h
          · rw [hpe] at h
            simp at h
        · rw [if_neg hok]
          exact herr s
  · intro J r ack s fs h
    rcases r with _ | resp
    · simp only [downloadExport] at h
      by_cases hle : J ≤ s.lastSavedStatusID
      · rw [if_pos hle] at h
        simp at h
      · rw [if_neg hle] at h
        simp at h
    · simp only [downloadExport] at h ⊢
      by_cases hle : J ≤ s.lastSavedStatusID
      · rw [if_pos hle] at h
        simp at h
      · rw [if_neg hle] at h ⊢
        by_cases hok : respOk resp.status = true
        · rw [if_pos hok] at h ⊢
          rcases hpe : processEntries s.readwiseDir resp.body s fs with ⟨s1, fs1, flag⟩
          rcases flag with _ | _
          · exact herr s1
          · rw [hpe] at h
            simp at h
        · rw [if_neg hok] at h
          simp at h

/-- C7 witness: concrete transport failures in the poll step, the export
request, and the artifact download all leave the failure-cleared state. -/
theorem failure_paths_clear_sync_state_witness :
    failureCleared (getExportStatusStep none DEFAULT_SETTINGS).1
    ∧ failureCleared (queueExport none DEFAULT_SETTINGS).1
    ∧ failureCleared (downloadExport 5 none none DEFAULT_SETTINGS ⟨[], []⟩).1 := by
  refine ⟨?_, ?_, ?_⟩
  · exact failure_paths_clear_sync_state.2.1 none DEFAULT_SETTINGS (by decide)
  · exact failure_paths_clear_sync_state.2.2.1 none DEFAULT_SETTINGS (by decide)
  · exact failure_paths_clear_sync_state.2.2.2.1 5 none none DEFAULT_SETTINGS ⟨[], []⟩
      (by decide)

/-- C8: `lastSavedStatusID` is monotonically non-decreasing along every
modelled operation that can assign it — `queueExport` (which reaches
`handleSyncSuccess` either with no id or with a strictly larger `latest_id`)
and the full `downloadExport` pipeline (guard, merge loop, ack, final
`handleSyncSuccess` with the job id). -/
theorem lastSavedStatusID_monotone :
    (∀ r s, s.lastSavedStatusID ≤ (queueExport r s).1.lastSavedStatusID)
    ∧ (∀ J r ack s fs,
        s.lastSavedStatusID ≤ (downloadExport J r ack s fs).1.lastSavedStatusID) := by
  constructor
  · intro r s
    rcases r with _ | resp
    · simp only [queueExport]
      by_cases hsync : s.isSyncing = true
      · rw [if_pos hsync]
      · rw [if_neg hsync]
        exact le_refl _
    · simp only [queueExport]
      by_cases hsync : s.isSyncing = true
      · rw [if_pos hsync]
      · rw [if_neg hsync]
        by_cases hok : respOk resp.status = true
        · rw [if_pos hok]
          by_cases hle : resp.body.latest_id ≤ s.lastSavedStatusID
          · rw [if_pos hle]
            exact le_refl _
          · rw [if_neg hle]
            by_cases h201 : resp.status = 201
            · rw [if_pos h201]
            · rw [if_neg h201]
              have hmono := handleSyncSuccess_some_lastSaved resp.body.latest_id
                { s with isSyncing := true, currentSyncStatusID := resp.body.latest_id }
                (by simp only []; omega)
              exact hmono
        · rw [if_neg hok]
          exact le_refl _
  · intro J r ack s fs
    rcases r with _ | resp
    · simp only [downloadExport]
      by_cases hle : J ≤ s.lastSavedStatusID
      · rw [if_pos hle]
        exact le_refl _
      · rw [if_neg hle]
        exact le_refl _
    · simp only [downloadExport]
      by_cases hle : J ≤ s.lastSavedStatusID
      · rw [if_pos hle]
        exact le_refl _
      · rw [if_neg hle]
        by_cases hok : respOk resp.status = true
        · rw [if_pos hok]
          rcases hpe : processEntries s.readwiseDir resp.body s fs with ⟨s1, fs1, flag⟩
          have hs1 : s1.lastSavedStatusID = s.lastSavedStatusID := by
            have hh := processEntries_lastSaved s.readwiseDir resp.body s fs
            rw [hpe] at hh
            exact hh
          rcases flag with _ | _
          · show s.lastSavedStatusID ≤ (handleSyncError s1).lastSavedStatusID
            rw [handleSyncError_lastSaved, hs1]
          · show s.lastSavedStatusID
              ≤ (handleSyncSuccess (some J) (ackStep ack s1)).lastSavedStatusID
            have hack : (ackStep ack s1).lastSavedStatusID = s.lastSavedStatusID := by
              rw [ackStep_lastSaved]
              exact hs1
            have hmono := handleSyncSuccess_some_lastSaved J (ackStep ack s1)
              (by rw [hack]; omega)
            rw [hack] at hmono
            exact hmono
        · rw [if_neg hok]
          exact le_refl _

/-- Concrete merge run for C9: one entry whose write raises an I/O error
(its target path is in `failPaths`), reached through the full
`downloadExport` pipeline. -/
def c9run : Settings × FS × DlResult :=
  downloadExport 5 (some ⟨200, [⟨"Readwise/Books/Foo--123.md", "hi"⟩]⟩) (some ⟨200, ()⟩)
    DEFAULT_SETTINGS ⟨[], ["Readwise/Books/Foo.md"]⟩

/-- C9 counterexample: the merge records `booksIDsMap[originalName] = bookID`
BEFORE attempting the write (src/src/main.ts lines 320-342), so after a run
in which the single entry's write fails, the index holds the key
`Readwise/Books/Foo.md` while no file was ever written there — the reached
state violates "every key was successfully written at least once", and the
run still completes. -/
theorem index_key_without_file_counterexample :
    c9run.2.2 = DlResult.completed
    ∧ mapLookup c9run.1.booksIDsMap "Readwise/Books/Foo.md" = some "123"
    ∧ mapLookup c9run.2.1.files "Readwise/Books/Foo.md" = none
    ∧ c9run.2.1.files = [] := by
  decide

/-- C9 amended: every key of `booksIDsMap` after a merge loop is either a key
that was already present or the de-suffixed target path of some processed
entry that parsed to a book id — i.e. a path whose write the merge engine
ATTEMPTED (the entry is recorded before the write, which may fail). -/
theorem booksIDsMap_keys_from_processed_entries (dir : String) (es : List ZipEntry) :
    ∀ (s : Settings) (fs : FS) (k : String),
      (mapLookup (processEntries dir es s fs).1.booksIDsMap k).isSome = true →
      (mapLookup s.booksIDsMap k).isSome = true
      ∨ ∃ e, e ∈ es ∧ ∃ b, entryTargetId dir e.filename = some (k, some b) := by
  induction es with
  | nil =>
    intro s fs k h
    exact Or.inl h
  | cons e rest ih =>
    intro s fs k h
    rcases hpe : processEntry dir e s fs with _ | ⟨s1, fs1⟩
    · simp only [processEntries, hpe] at h
      exact Or.inl h
    · simp only [processEntries, hpe] at h
      rcases ih s1 fs1 k h with h1 | ⟨e1, he1, b1, hb1⟩
      · rcases processEntry_booksIDsMap hpe with hm | ⟨t, b, het, hm⟩
        · rw [hm] at h1
          exact Or.inl h1
        · rw [hm] at h1
          rcases mapLookup_mapInsert_isSome s.booksIDsMap t b k h1 with hk | hk
          · subst hk
            exact Or.inr ⟨e, List.mem_cons_self e rest, b, het⟩
          · exact Or.inl hk
      · exact Or.inr ⟨e1, List.mem_cons_of_mem e he1, b1, hb1⟩

/-- C9 witness: the amended key-provenance property at the concrete failing
run — the key present after the merge is accounted for by the processed
entry. -/
theorem booksIDsMap_keys_from_processed_entries_witness :
    (mapLookup DEFAULT_SETTINGS.booksIDsMap "Readwise/Books/Foo.md").isSome = true
    ∨ ∃ e, e ∈ [ZipEntry.mk "Readwise/Books/Foo--123.md" "hi"]
        ∧ ∃ b, entryTargetId "Readwise" e.filename = some ("Readwise/Books/Foo.md", some b) :=
  booksIDsMap_keys_from_processed_entries "Readwise" [⟨"Readwise/Books/Foo--123.md", "hi"⟩]
    DEFAULT_SETTINGS ⟨[], ["Readwise/Books/Foo.md"]⟩ "Readwise/Books/Foo.md" (by decide)

/-- C10 counterexample: the entry `Readwise/Books/Foo--bar.md` contains the
`--` delimiter, but the segment after the last `--` has no decimal digit:
`split.last().match(/\d+/g)` is `null`, indexing it throws an uncaught
TypeError, the loop aborts, and NO file is written at all — contradicting the
claim that every delimited entry is written at the truncated name. -/
theorem entry_naming_counterexample :
    processEntry "Readwise" ⟨"Readwise/Books/Foo--bar.md", "hi"⟩ DEFAULT_SETTINGS ⟨[], []⟩ = none
    ∧ processEntries "Readwise" [⟨"Readwise/Books/Foo--bar.md", "hi"⟩] DEFAULT_SETTINGS ⟨[], []⟩
        = (DEFAULT_SETTINGS, ⟨[], []⟩, false) := by
  decide

/-- C10 amended: for an entry whose root-remapped (and normalized) name
contains the `--` delimiter AND whose segment after the last `--` contains at
least one decimal digit, the write target is the name truncated at the last
`--` with `.md` appended (the original extension is dropped with the last
segment), and the recorded id is the first maximal digit run of that last
segment; a delimited entry with no digit in the last segment throws — the
entry loop aborts with nothing written; an entry without the delimiter is
written under its remapped name (extension kept) with no index entry
added. -/
theorem entry_naming_semantics (dir : String) (e : ZipEntry) (s : Settings) (fs : FS) :
    (1 < (nameSplit dir e.filename).length →
      (∀ bid, firstDigitRun ((nameSplit dir e.filename).getLastD "") = some bid →
        entryTargetId dir e.filename = some (desuffixedTarget dir e.filename, some bid)
        ∧ (fs.failPaths.contains (desuffixedTarget dir e.filename) = false →
            ∃ s1 fs1, processEntry dir e s fs = some (s1, fs1)
              ∧ mapLookup s1.booksIDsMap (desuffixedTarget dir e.filename) = some bid
              ∧ (mapLookup fs1.files (desuffixedTarget dir e.filename)).isSome = true))
      ∧ (firstDigitRun ((nameSplit dir e.filename).getLastD "") = none →
          processEntry dir e s fs = none))
    ∧ (¬ 1 < (nameSplit dir e.filename).length →
        entryTargetId dir e.filename = some (processedName dir e.filename, none)
        ∧ (fs.failPaths.contains (processedName dir e.filename) = false →
            ∃ s1 fs1, processEntry dir e s fs = some (s1, fs1)
              ∧ s1.booksIDsMap = s.booksIDsMap
              ∧ (mapLookup fs1.files (processedName dir e.filename)).isSome = true)) := by
  constructor
  · intro hlen
    constructor
    · intro bid hdig
      have het : entryTargetId dir e.filename
          = some (desuffixedTarget dir e.filename, some bid) := by
        unfold entryTargetId
        rw [if_pos hlen, hdig]
      refine ⟨het, ?_⟩
      intro hfail
      set t := desuffixedTarget dir e.filename with ht
      refine ⟨entrySuccessQueue (some bid) (recordBook t (some bid) s),
        { fs with files := mapInsert fs.files t (contentToSave fs t e.contents) }, ?_, ?_, ?_⟩
      · simp only [processEntry, het, hfail, Bool.false_eq_true, if_false]
      · rw [entrySuccessQueue_booksIDsMap]
        exact mapLookup_mapInsert_self s.booksIDsMap t bid
      · rw [mapLookup_mapInsert_self]
        rfl
    · intro hdig
      unfold processEntry entryTargetId
      rw [if_pos hlen, hdig]
  · intro hlen
    have het : entryTargetId dir e.filename = some (processedName dir e.filename, none) := by
      unfold entryTargetId
      rw [if_neg hlen]
    refine ⟨het, ?_⟩
    intro hfail
    set t := processedName dir e.filename with ht
    refine ⟨entrySuccessQueue none (recordBook t none s),
      { fs with files := mapInsert fs.files t (contentToSave fs t e.contents) }, ?_, ?_, ?_⟩
    · simp only [processEntry, het, hfail, Bool.false_eq_true, if_false]
    · rfl
    · rw [mapLookup_mapInsert_self]
      rfl

/-- C10 witness: the amended naming semantics at the concrete entry
`Readwise/Books/Foo--123.md` — the parsed target is the truncated name with
`.md`, i.e. `Readwise/Books/Foo.md`, the parsed id is `123`, and the entry
merges successfully. -/
theorem entry_naming_semantics_witness :
    entryTargetId "Readwise" "Readwise/Books/Foo--123.md"
      = some (desuffixedTarget "Readwise" "Readwise/Books/Foo--123.md", some "123")
    ∧ desuffixedTarget "Readwise" "Readwise/Books/Foo--123.md" = "Readwise/Books/Foo.md"
    ∧ (processEntry "Readwise" ⟨"Readwise/Books/Foo--123.md", "hi"⟩ DEFAULT_SETTINGS
        ⟨[], []⟩).isSome = true := by
  have h := (entry_naming_semantics "Readwise" ⟨"Readwise/Books/Foo--123.md", "hi"⟩
      DEFAULT_SETTINGS ⟨[], []⟩).1 (by decide)
  have h1 := (h.1 "123" (by decide)).1
  have h2 := (h.1 "123" (by decide)).2 (by decide)
  refine ⟨h1, by decide, ?_⟩
  obtain ⟨s1, fs1, hp, _, _⟩ := h2
  rw [hp]
  rfl

end Readwise

